import Mathlib

/-!
Verification of the git-flow-next VS Code extension core (src/extension.ts):
the branch-state classifier, the configuration-to-argument resolvers, the
error-message extraction, the branch-list parsing, and the context-variable
state refresh.  JavaScript strings are modeled as `List Char`; the handful of
resolver settings that never require induction over string contents use
`String` directly.  External collaborators (the git process, the VS Code
workspace and configuration store, interactive prompts) are modeled as
explicit parameters: an `Except` value for a process result, an association
list for the configuration store, an `Option` for a prompt result.
-/

namespace GitFlowNext

/-- JavaScript whitespace (the common subset relevant here) used by
String.prototype.trim. -/
def isJsWhitespace (c : Char) : Bool :=
  c == ' ' || c == '\t' || c == '\n' || c == '\r'

/-- Model of JavaScript String.prototype.trim on a char list. -/
def trimChars (s : List Char) : List Char :=
  ((s.dropWhile isJsWhitespace).reverse.dropWhile isJsWhitespace).reverse

/-- Model of JavaScript String.prototype.trim on `String` (the `.trim()`
calls of the resolvers). -/
def jsTrim (s : String) : String :=
  ⟨trimChars s.data⟩

/-- Model of JavaScript String.prototype.replace with a plain-string pattern
and empty replacement: remove the first occurrence of `pat` (if any). -/
def replaceFirst : List Char → List Char → List Char
  | [], _ => []
  | c :: rest, pat =>
    if pat.isPrefixOf (c :: rest) then List.drop pat.length (c :: rest)
    else c :: replaceFirst rest pat

/-- Model of JavaScript String.prototype.includes: `pat` occurs as a
contiguous substring of `s`. -/
def containsSub : List Char → List Char → Bool
  | [], pat => pat.isEmpty
  | c :: rest, pat => pat.isPrefixOf (c :: rest) || containsSub rest pat

/-- Model of JavaScript String.prototype.endsWith on char lists. -/
def endsWithL (s suf : List Char) : Bool :=
  suf.isSuffixOf s

/-- The closed tag set of `BranchInfo.type` in the source
(`'feature' | 'release' | 'hotfix' | 'support' | 'bugfix' | 'main' |
'develop' | 'unknown'`). -/
inductive BranchType where
  | feature
  | release
  | hotfix
  | support
  | bugfix
  | main
  | develop
  | unknown
deriving Repr, DecidableEq, BEq

/-- The `BranchInfo` interface of the source: branch type, short name and
full ref name. -/
structure BranchInfo where
  type : BranchType
  name : List Char
  fullName : List Char
deriving Repr, DecidableEq

/-- The five topic kinds (feature, release, hotfix, support, bugfix). -/
def isTopicType : BranchType → Bool
  | .feature => true
  | .release => true
  | .hotfix => true
  | .support => true
  | .bugfix => true
  | _ => false

/-- The ref-name text tested by `getCurrentBranch` for each topic kind
(the hard-coded strings of the startsWith chain). -/
def topicMarker : BranchType → List Char
  | .feature => "feature/".toList
  | .release => "release/".toList
  | .hotfix => "hotfix/".toList
  | .support => "support/".toList
  | .bugfix => "bugfix/".toList
  | _ => []

/-- The classification chain of `getCurrentBranch` (src/extension.ts,
lines 1676-1725): test the trimmed branch name against each topic marker
with startsWith in the source's fixed order, strip the first occurrence of
the marker (String.replace semantics) to obtain the short name; otherwise
compare against the base-branch names main/master/develop; anything else is
`unknown`. -/
def classifyBranch (branchName : List Char) : BranchInfo :=
  if ("feature/".toList).isPrefixOf branchName then
    ⟨.feature, replaceFirst branchName "feature/".toList, branchName⟩
  else if ("release/".toList).isPrefixOf branchName then
    ⟨.release, replaceFirst branchName "release/".toList, branchName⟩
  else if ("hotfix/".toList).isPrefixOf branchName then
    ⟨.hotfix, replaceFirst branchName "hotfix/".toList, branchName⟩
  else if ("support/".toList).isPrefixOf branchName then
    ⟨.support, replaceFirst branchName "support/".toList, branchName⟩
  else if ("bugfix/".toList).isPrefixOf branchName then
    ⟨.bugfix, replaceFirst branchName "bugfix/".toList, branchName⟩
  else if branchName == "main".toList || branchName == "master".toList then
    ⟨.main, branchName, branchName⟩
  else if branchName == "develop".toList then
    ⟨.develop, branchName, branchName⟩
  else
    ⟨.unknown, branchName, branchName⟩

/-- A branch name matches some classifier case other than the `unknown`
fallback: some topic marker is a leading piece of it, or it equals one of
the base-branch names. -/
def matchesKnown (branchName : List Char) : Bool :=
  ("feature/".toList).isPrefixOf branchName ||
  ("release/".toList).isPrefixOf branchName ||
  ("hotfix/".toList).isPrefixOf branchName ||
  ("support/".toList).isPrefixOf branchName ||
  ("bugfix/".toList).isPrefixOf branchName ||
  branchName == "main".toList || branchName == "master".toList ||
  branchName == "develop".toList

/-- Embedding of `getCurrentBranch` (src/extension.ts, lines 1661-1729): throws when no
workspace folder is open; otherwise runs `git branch --show-current` and, on
failure of that query, throws `Not in a git repository`; on success it trims
the output and classifies it.  The workspace check and the git query result
are explicit parameters; thrown errors are the `Except.error` branch. -/
def getCurrentBranch (hasWorkspace : Bool)
    (gitQuery : Except (List Char) (List Char)) :
    Except (List Char) BranchInfo :=
  if !hasWorkspace then
    .error "No workspace folder open. Please open a git repository folder.".toList
  else
    match gitQuery with
    | .error _ => .error "Not in a git repository".toList
    | .ok stdout => .ok (classifyBranch (trimChars stdout))

/-- A stored value in the VS Code configuration store: the settings used by
the resolvers are strings or booleans. -/
inductive ConfigValue where
  | str : String → ConfigValue
  | bool : Bool → ConfigValue
deriving Repr, DecidableEq

/-- The `gitFlowNext` configuration section, modeled as an association list
from setting key to stored value. -/
abbrev Config := List (String × ConfigValue)

/-- Lookup of a key in the configuration store. -/
def configFind : Config → String → Option ConfigValue
  | [], _ => none
  | (k, v) :: rest, key => if k = key then some v else configFind rest key

/-- Model of `config.get<string>(key, dflt)`: the stored string if present,
the supplied default otherwise. -/
def configGetStr (cfg : Config) (key dflt : String) : String :=
  match configFind cfg key with
  | some (.str s) => s
  | _ => dflt

/-- Model of `config.get<boolean>(key, dflt)`: the stored boolean if
present, the supplied default otherwise. -/
def configGetBool (cfg : Config) (key : String) (dflt : Bool) : Bool :=
  match configFind cfg key with
  | some (.bool b) => b
  | _ => dflt

/-- The two operations `getMergeStrategy` distinguishes. -/
inductive GFOperation where
  | finish
  | update
deriving Repr, DecidableEq

/-- The text of the operation used to build the settings key. -/
def opText : GFOperation → String
  | .finish => "finish"
  | .update => "update"

/-- Embedding of `getMergeStrategy` (src/extension.ts, lines 1346-1375): read
`branchType.<operation>Strategy` with default `merge`; the sentinel
`use-git-config` (or an empty value) yields no flag; for finish,
rebase/squash map to their flags and merge (or anything else) to no flag;
for update only rebase maps to a flag. -/
def getMergeStrategy (cfg : Config) (branchType : String)
    (operation : GFOperation) : List String :=
  let strategy :=
    configGetStr cfg (branchType ++ "." ++ opText operation ++ "Strategy") "merge"
  if strategy = "use-git-config" || strategy = "" then []
  else
    match operation with
    | .finish =>
      if strategy = "rebase" then ["--rebase"]
      else if strategy = "squash" then ["--squash"]
      else []
    | .update =>
      if strategy = "rebase" then ["--rebase"]
      else []

/-- Embedding of `getFastForwardOptions` (src/extension.ts, lines 1421-1437): read
`branchType.fastForward` with default `no-ff`; the sentinel
`use-git-config` (or an empty value) yields no flag; `no-ff` and `ff` map
to their flags, anything else to no flag. -/
def getFastForwardOptions (cfg : Config) (branchType : String) : List String :=
  let fastForward := configGetStr cfg (branchType ++ ".fastForward") "no-ff"
  if fastForward = "use-git-config" || fastForward = "" then []
  else
    if fastForward = "no-ff" then ["--no-ff"]
    else if fastForward = "ff" then ["--ff"]
    else []

/-- Embedding of `getPreserveMergesOption` (src/extension.ts, lines 1440-1445): read
`branchType.preserveMerges` with default false and append the flag when
true. -/
def getPreserveMergesOption (cfg : Config) (branchType : String) : List String :=
  let preserveMerges := configGetBool cfg (branchType ++ ".preserveMerges") false
  if preserveMerges then ["--preserve-merges"] else []

/-- Truthiness of the optional `branchName` argument of `getTagOptions`
(a JavaScript string-or-undefined: undefined and the empty string are
falsy). -/
def optStrTruthy : Option String → Bool
  | none => false
  | some s => s ≠ ""

/-- Embedding of `getTagOptions` (src/extension.ts, lines 1466-1508): when
`branchType.createTag` (default false) resolves true, emit `--tag` followed
by the trimmed tag prefix (when non-empty), the interactively entered tag
message (when prompting is enabled, a branch name was supplied, and the
entered message is non-empty after trimming), and the signing options;
otherwise emit `--notag`.  The interactive input-box result is the explicit
parameter `promptResult` (`none` models a cancelled prompt). -/
def getTagOptions (cfg : Config) (branchType : String)
    (branchName : Option String) (promptResult : Option String) :
    List String :=
  let createTag := configGetBool cfg (branchType ++ ".createTag") false
  let signTags := configGetBool cfg "signTags" false
  let gpgKey := configGetStr cfg "gpgSigningKey" ""
  let tagPreV := configGetStr cfg (branchType ++ ".tagPrefix") ""
  let promptForMessage := configGetBool cfg "promptForTagMessage" false
  if createTag then
    ["--tag"]
    ++ (if jsTrim tagPreV ≠ "" then ["--tagprefix", jsTrim tagPreV] else [])
    ++ (if promptForMessage && optStrTruthy branchName then
          match promptResult with
          | some tagMessage =>
            if jsTrim tagMessage ≠ "" then ["--message", jsTrim tagMessage]
            else []
          | none => []
        else [])
    ++ (if signTags then
          ["--sign"]
          ++ (if jsTrim gpgKey ≠ "" then ["--signingkey", jsTrim gpgKey]
              else [])
        else [])
  else
    ["--notag"]

/-- Embedding of `getBranchRetentionOptions` (src/extension.ts, lines 1511-1540): read
`branchType.keepBranch` with default `delete`; unless the sentinel
`use-git-config` is set, map keep/keep-local/keep-remote to their flags and
`delete` (or any other value) to no flag; append `--force-delete` exactly
when the global `forceDelete` setting is true. -/
def getBranchRetentionOptions (cfg : Config) (branchType : String) :
    List String :=
  let keepBranch := configGetStr cfg (branchType ++ ".keepBranch") "delete"
  let forceDelete := configGetBool cfg "forceDelete" false
  (if keepBranch ≠ "use-git-config" then
    if keepBranch = "keep" then ["--keep"]
    else if keepBranch = "keep-local" then ["--keeplocal"]
    else if keepBranch = "keep-remote" then ["--keepremote"]
    else []
  else [])
  ++ (if forceDelete then ["--force-delete"] else [])

/-- The marker text of the error-extraction regular expression
of `executeGitFlowCommand`. -/
def errMarker : List Char := "Error: ".toList

/-- The characters of a line: everything up to (excluding) the next newline
or the end of the text. -/
def lineTake (s : List Char) : List Char :=
  s.takeWhile (fun c => c ≠ '\n')

/-- The match of `/Error: (.+?)(?:\n|$)/` against the failure text
(src/extension.ts, line 1645): scan left to right for the first position
where `Error: ` occurs followed by at least one character before the end of
that line; the captured group is that line remainder. -/
def findErrorCapture : List Char → Option (List Char)
  | [] => none
  | c :: rest =>
    if errMarker.isPrefixOf (c :: rest) &&
        !(lineTake (List.drop errMarker.length (c :: rest))).isEmpty then
      some (lineTake (List.drop errMarker.length (c :: rest)))
    else
      findErrorCapture rest

/-- The anchored replacement `/^Command failed: [^\n]+\n?/` with empty
replacement (src/extension.ts, line 1650): when the text begins with
`Command failed: ` followed by at least one non-newline character, remove
the marker, those characters and one optional following newline. -/
def stripCommandFailed (s : List Char) : List Char :=
  let key := "Command failed: ".toList
  if key.isPrefixOf s then
    let rest := List.drop key.length s
    let body := lineTake rest
    if body.isEmpty then s
    else
      match List.drop body.length rest with
      | '\n' :: tl => tl
      | other => other
  else s

/-- The error-message extraction of `executeGitFlowCommand`
(src/extension.ts, lines 1639-1651): prefer the group captured by the
`Error: ` pattern; otherwise strip a leading `Command failed: <cmdline>`
line and trim the remainder. -/
def extractGitFlowError (errorMessage : List Char) : List Char :=
  match findErrorCapture errorMessage with
  | some captured => captured
  | none => trimChars (stripCommandFailed errorMessage)

/-- Position `i` of the failure text carries an `Error: ` marker with a
non-empty message on the same line.  Stated over drop so it is meaningful
for every natural index. -/
def errorMarkerAt (s : List Char) (i : Nat) : Bool :=
  errMarker.isPrefixOf (List.drop i s) &&
  !(lineTake (List.drop (i + errMarker.length) s)).isEmpty

/-- The least position of the failure text carrying an `Error: ` marker
with a non-empty same-line message, if any (spec-side characterization:
the first matching index of the scan order). -/
def firstErrorMarker (s : List Char) : Option Nat :=
  (List.range s.length).find? (fun i => errorMarkerAt s i)

/-- Embedding of `getBranchList` (src/extension.ts, lines 1092-1102): run
`git flow <type> list`; on failure return the empty list; on success split
the output on newlines, keep the lines that are non-empty after trimming
and whose trimmed text does not end with a colon (header lines such as
`Feature branches:`), and return the trimmed lines.  The command result is
the explicit parameter. -/
def getBranchList (cmdResult : Except (List Char) (List Char)) :
    List (List Char) :=
  match cmdResult with
  | .error _ => []
  | .ok output =>
    (((output.splitOn '\n').filter (fun line => !(trimChars line).isEmpty)).filter
      (fun line => !endsWithL (trimChars line) ":".toList)).map
      (fun line => trimChars line)

/-- Embedding of `GitFlowTreeDataProvider.getBranchList` (src/extension.ts, lines
964-980): the same parsing, but returning the empty list also when no
workspace folder is open. -/
def treeGetBranchList (hasWorkspace : Bool)
    (cmdResult : Except (List Char) (List Char)) : List (List Char) :=
  if !hasWorkspace then []
  else getBranchList cmdResult

/-- The boolean context variables published by `updateContextVariables`
(the `contextKeys` record of the source, lines 1027-1041). -/
structure ContextSnapshot where
  isInstalled : Bool
  isInitialized : Bool
  isOnTopicBranch : Bool
  isOnFeatureBranch : Bool
  isOnReleaseBranch : Bool
  isOnHotfixBranch : Bool
  isOnSupportBranch : Bool
  isOnBugfixBranch : Bool
  featuresExist : Bool
  releasesExist : Bool
  hotfixesExist : Bool
  supportsExist : Bool
  bugfixesExist : Bool
deriving Repr, DecidableEq

/-- The snapshot published by the catch branch of
`updateContextVariables`: every context key reset to false. -/
def allFalseSnapshot : ContextSnapshot :=
  ⟨false, false, false, false, false, false, false, false,
   false, false, false, false, false⟩

/-- Embedding of `updateContextVariables` (src/extension.ts, lines 1044-1089): the
installation and initialization statuses and the current-branch query
result are explicit parameters, as is the per-kind `<type> list` command
collaborator.  When the current-branch query throws, the catch branch
resets every context key to false; otherwise the branch-kind flags are
derived from the classified branch and each existence flag from its own
branch list (each list query is `getBranchList`, which swallows its own
failure). -/
def updateContextVariables (isInstalled isInitialized : Bool)
    (currentBranch : Except (List Char) BranchInfo)
    (runList : List Char → Except (List Char) (List Char)) :
    ContextSnapshot :=
  match currentBranch with
  | .error _ => allFalseSnapshot
  | .ok branchInfo =>
    let features := getBranchList (runList "feature".toList)
    let releases := getBranchList (runList "release".toList)
    let hotfixes := getBranchList (runList "hotfix".toList)
    let supports := getBranchList (runList "support".toList)
    let bugfixes := getBranchList (runList "bugfix".toList)
    { isInstalled := isInstalled
      isInitialized := isInitialized
      isOnTopicBranch :=
        branchInfo.type != .main && branchInfo.type != .develop &&
        branchInfo.type != .unknown
      isOnFeatureBranch := branchInfo.type == .feature
      isOnReleaseBranch := branchInfo.type == .release
      isOnHotfixBranch := branchInfo.type == .hotfix
      isOnSupportBranch := branchInfo.type == .support
      isOnBugfixBranch := branchInfo.type == .bugfix
      featuresExist := decide (features.length > 0)
      releasesExist := decide (releases.length > 0)
      hotfixesExist := decide (hotfixes.length > 0)
      supportsExist := decide (supports.length > 0)
      bugfixesExist := decide (bugfixes.length > 0) }

/-- The filter of the `onDidSaveTextDocument` handler (src/extension.ts,
lines 1179-1185): the saved file's name contains `.git/` or ends with
`.gitignore`. -/
def matchesGitSave (fileName : List Char) : Bool :=
  containsSub fileName ".git/".toList || endsWithL fileName ".gitignore".toList

/-- The refresh schedule produced by the `onDidSaveTextDocument` handler
for a sequence of save events (save time in milliseconds, saved file
name): every matching save calls `setTimeout(updateContextVariables, 1000)`
unconditionally, so every matching save contributes its own refresh firing
1000 ms later; no timer is ever cancelled. -/
def scheduledRefreshTimes (saves : List (Nat × List Char)) : List Nat :=
  (saves.filter (fun save => matchesGitSave save.2)).map
    (fun save => save.1 + 1000)

/- Helper lemmas about the char-list operations. -/

theorem isPrefixOf_self_append (p n : List Char) :
    p.isPrefixOf (p ++ n) = true := by
  induction p with
  | nil => simp [List.isPrefixOf]
  | cons c cs ih => simp [List.isPrefixOf, ih]

theorem replaceFirst_append (p n : List Char) (hp : p ≠ []) :
    replaceFirst (p ++ n) p = n := by
  cases p with
  | nil => exact absurd rfl hp
  | cons c cs =>
    have hpre : (c :: cs).isPrefixOf (c :: cs ++ n) = true :=
      isPrefixOf_self_append (c :: cs) n
    have hdrop := List.drop_left (c :: cs) n
    simp only [List.cons_append] at hpre hdrop ⊢
    simp [replaceFirst, hpre, hdrop]

theorem isPrefixOf_ne_first (c d : Char) (p s : List Char)
    (h : (c == d) = false) :
    List.isPrefixOf (c :: p) (d :: s) = false := by
  simp only [List.isPrefixOf, h, Bool.false_and]

/-- C2: for every topic kind and every non-empty branch name, classifying
the ref name built from the kind's marker text followed by the name yields
that kind and that short name, and the full ref name of the result is the
marker text followed by the short name. -/
theorem claim_C2_classifier_roundtrip (k : BranchType)
    (hk : isTopicType k = true) (n : List Char) (hn : n ≠ []) :
    classifyBranch (topicMarker k ++ n) = ⟨k, n, topicMarker k ++ n⟩ := by
  have hfeat : replaceFirst ("feature/".toList ++ n) "feature/".toList = n :=
    replaceFirst_append _ _ (by decide)
  have hrel : replaceFirst ("release/".toList ++ n) "release/".toList = n :=
    replaceFirst_append _ _ (by decide)
  have hhot : replaceFirst ("hotfix/".toList ++ n) "hotfix/".toList = n :=
    replaceFirst_append _ _ (by decide)
  have hsup : replaceFirst ("support/".toList ++ n) "support/".toList = n :=
    replaceFirst_append _ _ (by decide)
  have hbug : replaceFirst ("bugfix/".toList ++ n) "bugfix/".toList = n :=
    replaceFirst_append _ _ (by decide)
  cases k with
  | feature =>
    simp [topicMarker, classifyBranch, isPrefixOf_self_append]
    exact hfeat
  | release =>
    have h1 : List.isPrefixOf "feature/".toList ("release/".toList ++ n) = false :=
      isPrefixOf_ne_first 'f' 'r' _ _ (by decide)
    simp [topicMarker, classifyBranch, isPrefixOf_self_append, h1]
    exact hrel
  | hotfix =>
    have h1 : List.isPrefixOf "feature/".toList ("hotfix/".toList ++ n) = false :=
      isPrefixOf_ne_first 'f' 'h' _ _ (by decide)
    have h2 : List.isPrefixOf "release/".toList ("hotfix/".toList ++ n) = false :=
      isPrefixOf_ne_first 'r' 'h' _ _ (by decide)
    simp [topicMarker, classifyBranch, isPrefixOf_self_append, h1, h2]
    exact hhot
  | support =>
    have h1 : List.isPrefixOf "feature/".toList ("support/".toList ++ n) = false :=
      isPrefixOf_ne_first 'f' 's' _ _ (by decide)
    have h2 : List.isPrefixOf "release/".toList ("support/".toList ++ n) = false :=
      isPrefixOf_ne_first 'r' 's' _ _ (by decide)
    have h3 : List.isPrefixOf "hotfix/".toList ("support/".toList ++ n) = false :=
      isPrefixOf_ne_first 'h' 's' _ _ (by decide)
    simp [topicMarker, classifyBranch, isPrefixOf_self_append, h1, h2, h3]
    exact hsup
  | bugfix =>
    have h1 : List.isPrefixOf "feature/".toList ("bugfix/".toList ++ n) = false :=
      isPrefixOf_ne_first 'f' 'b' _ _ (by decide)
    have h2 : List.isPrefixOf "release/".toList ("bugfix/".toList ++ n) = false :=
      isPrefixOf_ne_first 'r' 'b' _ _ (by decide)
    have h3 : List.isPrefixOf "hotfix/".toList ("bugfix/".toList ++ n) = false :=
      isPrefixOf_ne_first 'h' 'b' _ _ (by decide)
    have h4 : List.isPrefixOf "support/".toList ("bugfix/".toList ++ n) = false :=
      isPrefixOf_ne_first 's' 'b' _ _ (by decide)
    simp [topicMarker, classifyBranch, isPrefixOf_self_append, h1, h2, h3, h4]
    exact hbug
  | main => simp [isTopicType] at hk
  | develop => simp [isTopicType] at hk
  | unknown => simp [isTopicType] at hk

/-- Witness for C2 at kind feature and name login. -/
theorem claim_C2_witness :
    classifyBranch (topicMarker BranchType.feature ++ "login".toList) =
      ⟨BranchType.feature, "login".toList,
       topicMarker BranchType.feature ++ "login".toList⟩ :=
  claim_C2_classifier_roundtrip BranchType.feature rfl "login".toList (by decide)

/-- C6: `getCurrentBranch` produces its `Not in a git repository` failure
only when the underlying branch query failed; whenever the query succeeds
it returns the classification of the trimmed output (it does not fail), and
when the trimmed output matches no topic marker and no base-branch name —
the empty name of a detached HEAD included — that classification is kind
`unknown` with short name and full ref name both the queried name. -/
theorem claim_C6_not_a_repository_only_on_query_failure (hasWorkspace : Bool)
    (gitQuery : Except (List Char) (List Char)) :
    (getCurrentBranch hasWorkspace gitQuery =
        .error "Not in a git repository".toList →
      ∃ msg, gitQuery = .error msg) ∧
    (∀ stdout, hasWorkspace = true → gitQuery = .ok stdout →
      getCurrentBranch hasWorkspace gitQuery =
        .ok (classifyBranch (trimChars stdout))) ∧
    (∀ stdout, hasWorkspace = true → gitQuery = .ok stdout →
      matchesKnown (trimChars stdout) = false →
      getCurrentBranch hasWorkspace gitQuery =
        .ok ⟨.unknown, trimChars stdout, trimChars stdout⟩) := by
  refine ⟨?_, ?_, ?_⟩
  · intro h
    cases hasWorkspace with
    | false =>
      exfalso
      simp only [getCurrentBranch, Bool.not_false, if_true] at h
      exact absurd (Except.error.inj h) (by decide)
    | true =>
      cases gitQuery with
      | error msg => exact ⟨msg, rfl⟩
      | ok stdout => simp [getCurrentBranch] at h
  · intro stdout hw hq
    subst hw; subst hq
    simp [getCurrentBranch]
  · intro stdout hw hq hmk
    subst hw; subst hq
    have hcl : classifyBranch (trimChars stdout) =
        ⟨.unknown, trimChars stdout, trimChars stdout⟩ := by
      simp only [matchesKnown, Bool.or_eq_false_iff] at hmk
      obtain ⟨⟨⟨⟨⟨⟨⟨h1, h2⟩, h3⟩, h4⟩, h5⟩, h6⟩, h7⟩, h8⟩ := hmk
      simp at h1 h2 h3 h4 h5 h6 h7 h8
      simp [classifyBranch, h1, h2, h3, h4, h5, h6, h7, h8]
    simp [getCurrentBranch, hcl]

/-- Witness for C6 at a detached HEAD: the query succeeds with empty
output and classification degrades to `unknown` instead of failing. -/
theorem claim_C6_witness :
    getCurrentBranch true (.ok "".toList) =
      .ok ⟨BranchType.unknown, [], []⟩ := by
  have h := claim_C6_not_a_repository_only_on_query_failure true (.ok "".toList)
  exact h.2.2 "".toList rfl rfl (by decide)

/-- C1: the state refresh never surfaces a failure of the current-branch
query: whenever `getCurrentBranch` fails — no workspace folder open, or the
git query itself failed (not a repository) — `updateContextVariables`
publishes the snapshot with every context key false (in particular no
branch-kind flag and no per-kind existence flag is set). -/
theorem claim_C1_refresh_degrades_to_all_false (isInstalled isInitialized : Bool)
    (hasWorkspace : Bool) (gitQuery : Except (List Char) (List Char))
    (runList : List Char → Except (List Char) (List Char))
    (hfail : hasWorkspace = false ∨ ∃ msg, gitQuery = .error msg) :
    updateContextVariables isInstalled isInitialized
        (getCurrentBranch hasWorkspace gitQuery) runList = allFalseSnapshot := by
  rcases hfail with h | ⟨msg, h⟩
  · subst h
    rfl
  · subst h
    cases hasWorkspace <;> rfl

/-- Witness for C1: the git query fails while every list query would
succeed, and the published snapshot is the all-false one. -/
theorem claim_C1_witness :
    updateContextVariables true true
        (getCurrentBranch true
          (.error "fatal: not a git repository".toList))
        (fun _ => .ok "one\n".toList) = allFalseSnapshot :=
  claim_C1_refresh_degrades_to_all_false true true true _ _ (Or.inr ⟨_, rfl⟩)

/-- C7: the per-kind existence queries of the state refresh are
independent: when the list command for `support` throws, the published
snapshot still carries `supportsExist = false` while every other kind's
existence flag reflects its own list result, and the refresh completes
(the branch-kind flags are still derived from the classified branch). -/
theorem claim_C7_per_kind_queries_independent (isInstalled isInitialized : Bool)
    (branchInfo : BranchInfo)
    (runList : List Char → Except (List Char) (List Char)) (msg : List Char)
    (hsupport : runList "support".toList = .error msg) :
    (updateContextVariables isInstalled isInitialized (.ok branchInfo)
        runList).supportsExist = false ∧
    (updateContextVariables isInstalled isInitialized (.ok branchInfo)
        runList).featuresExist =
      decide ((getBranchList (runList "feature".toList)).length > 0) ∧
    (updateContextVariables isInstalled isInitialized (.ok branchInfo)
        runList).releasesExist =
      decide ((getBranchList (runList "release".toList)).length > 0) ∧
    (updateContextVariables isInstalled isInitialized (.ok branchInfo)
        runList).hotfixesExist =
      decide ((getBranchList (runList "hotfix".toList)).length > 0) ∧
    (updateContextVariables isInstalled isInitialized (.ok branchInfo)
        runList).bugfixesExist =
      decide ((getBranchList (runList "bugfix".toList)).length > 0) ∧
    (updateContextVariables isInstalled isInitialized (.ok branchInfo)
        runList).isOnFeatureBranch = (branchInfo.type == .feature) := by
  refine ⟨?_, rfl, rfl, rfl, rfl, rfl⟩
  have hs : runList ['s', 'u', 'p', 'p', 'o', 'r', 't'] = Except.error msg :=
    hsupport
  simp [updateContextVariables, getBranchList, hs]

/-- Witness for C7: the support list command throws, the others return one
branch each; the support flag is false, the feature flag true. -/
theorem claim_C7_witness :
    (updateContextVariables true true
        (.ok ⟨BranchType.feature, "x".toList, "feature/x".toList⟩)
        (fun t => if t = "support".toList then .error "boom".toList
                  else .ok "one\n".toList)).supportsExist = false ∧
    (updateContextVariables true true
        (.ok ⟨BranchType.feature, "x".toList, "feature/x".toList⟩)
        (fun t => if t = "support".toList then .error "boom".toList
                  else .ok "one\n".toList)).featuresExist = true := by
  have h := claim_C7_per_kind_queries_independent true true
    ⟨BranchType.feature, "x".toList, "feature/x".toList⟩
    (fun t => if t = "support".toList then .error "boom".toList
              else .ok "one\n".toList)
    "boom".toList (by simp)
  refine ⟨h.1, ?_⟩
  rw [h.2.1]
  decide

/-- C3 counterexample: resolving command arguments for a kind that is not a
registered branch type does not fail — every resolver is a total function
of the configuration and, for an unregistered kind with no stored settings,
silently yields the generic defaults (merge strategy: no flag; tags:
`--notag`; retention: no flag; fast-forward: `--no-ff`; preserve-merges:
no flag).  No UnknownBranchType failure exists anywhere in the source. -/
theorem claim_C3_counterexample :
    getMergeStrategy [] "unregisteredtype" GFOperation.finish = [] ∧
    getMergeStrategy [] "unregisteredtype" GFOperation.update = [] ∧
    getTagOptions [] "unregisteredtype" none none = ["--notag"] ∧
    getBranchRetentionOptions [] "unregisteredtype" = [] ∧
    getFastForwardOptions [] "unregisteredtype" = ["--no-ff"] ∧
    getPreserveMergesOption [] "unregisteredtype" = [] := by
  decide

/-- C3 (amended): resolving command arguments for any kind string —
registered or not — is total and never fails; with no applicable stored
configuration it falls back to the generic defaults of each settings
lookup. -/
theorem claim_C3_amended_resolvers_total_with_defaults (cfg : Config)
    (branchType : String) (branchName promptResult : Option String)
    (hempty : ∀ key, configFind cfg key = none) :
    getMergeStrategy cfg branchType GFOperation.finish = [] ∧
    getMergeStrategy cfg branchType GFOperation.update = [] ∧
    getTagOptions cfg branchType branchName promptResult = ["--notag"] ∧
    getBranchRetentionOptions cfg branchType = [] ∧
    getFastForwardOptions cfg branchType = ["--no-ff"] ∧
    getPreserveMergesOption cfg branchType = [] := by
  simp only [getMergeStrategy, getTagOptions, getBranchRetentionOptions,
    getFastForwardOptions, getPreserveMergesOption, configGetStr,
    configGetBool, hempty]
  simp [optStrTruthy]

/-- Witness for C3's amended statement at the empty configuration. -/
theorem claim_C3_witness :
    getTagOptions [] "anothertype" none none = ["--notag"] ∧
    getMergeStrategy [] "anothertype" GFOperation.finish = [] :=
  ⟨(claim_C3_amended_resolvers_total_with_defaults [] "anothertype" none none
      (fun _ => rfl)).2.2.1,
   (claim_C3_amended_resolvers_total_with_defaults [] "anothertype" none none
      (fun _ => rfl)).1⟩

/-- C10: `getBranchList` never fails — a failing list command yields the
empty list — and every returned element is the trimmed text of some line
of the command output, non-empty and not ending with a colon (header lines
are filtered out); the tree-view variant returns the same lists and
additionally the empty list when no workspace folder is open. -/
theorem claim_C10_branch_list_lines (cmdResult :
    Except (List Char) (List Char)) :
    (∀ e, cmdResult = .error e → getBranchList cmdResult = []) ∧
    (∀ output branch, cmdResult = .ok output →
      branch ∈ getBranchList cmdResult →
      ∃ line ∈ output.splitOn '\n',
        branch = trimChars line ∧ branch ≠ [] ∧
        endsWithL branch ":".toList = false) ∧
    treeGetBranchList false cmdResult = [] ∧
    treeGetBranchList true cmdResult = getBranchList cmdResult := by
  refine ⟨?_, ?_, rfl, rfl⟩
  · intro e he
    subst he
    rfl
  · intro output branch hq hmem
    subst hq
    simp only [getBranchList, List.mem_map, List.mem_filter] at hmem
    obtain ⟨line, ⟨⟨hline, hne⟩, hcolon⟩, hbr⟩ := hmem
    refine ⟨line, hline, hbr.symm, ?_, ?_⟩
    · intro hnil
      rw [hbr] at hne
      rw [hnil] at hne
      simp at hne
    · rw [hbr] at hcolon
      simpa using hcolon

/-- Witness for C10: a real list output with a header line; the element
`one` is the trimmed text of one of its lines. -/
theorem claim_C10_witness :
    ∃ line ∈ ("Feature branches:\n  one\n".toList).splitOn '\n',
      "one".toList = trimChars line ∧ "one".toList ≠ [] ∧
      endsWithL "one".toList ":".toList = false := by
  have h :=
    (claim_C10_branch_list_lines (.ok "Feature branches:\n  one\n".toList)).2.1
  exact h "Feature branches:\n  one\n".toList "one".toList rfl (by decide)

/-- C5: evidence that the file-save-triggered refresh is not debounced:
the handler schedules an independent refresh for every matching save, so
two saves under the repository metadata directory 100 ms apart — well
inside the 1000 ms window — schedule two refreshes (firing at 1000 ms and
1100 ms), not one. -/
theorem claim_C5_two_saves_schedule_two_refreshes :
    scheduledRefreshTimes
        [(0, ".git/HEAD".toList), (100, ".git/HEAD".toList)] =
      [1000, 1100] := by
  decide

/-- C8: the resolved branch-retention options carry at most one of
`--keep`/`--keeplocal`/`--keepremote`, none of them when the retention mode
resolves to `delete`, and `--force-delete` exactly when the `forceDelete`
setting is true — independently of the retention mode. -/
theorem claim_C8_retention_axes (cfg : Config) (branchType : String) :
    ((getBranchRetentionOptions cfg branchType).count "--keep" +
     (getBranchRetentionOptions cfg branchType).count "--keeplocal" +
     (getBranchRetentionOptions cfg branchType).count "--keepremote" ≤ 1) ∧
    (configGetStr cfg (branchType ++ ".keepBranch") "delete" = "delete" →
      "--keep" ∉ getBranchRetentionOptions cfg branchType ∧
      "--keeplocal" ∉ getBranchRetentionOptions cfg branchType ∧
      "--keepremote" ∉ getBranchRetentionOptions cfg branchType) ∧
    ("--force-delete" ∈ getBranchRetentionOptions cfg branchType ↔
      configGetBool cfg "forceDelete" false = true) := by
  cases hb : configGetBool cfg "forceDelete" false <;>
    simp only [getBranchRetentionOptions, hb] <;>
    split_ifs with h1 h2 h3 h4 <;>
    simp_all

/-- Witness for C8: retention mode defaults to delete while force-delete
is enabled: no keep flag, and the force-delete flag is present. -/
theorem claim_C8_witness :
    "--keep" ∉
      getBranchRetentionOptions [("forceDelete", ConfigValue.bool true)]
        "feature" ∧
    "--force-delete" ∈
      getBranchRetentionOptions [("forceDelete", ConfigValue.bool true)]
        "feature" := by
  have h :=
    claim_C8_retention_axes [("forceDelete", ConfigValue.bool true)] "feature"
  exact ⟨(h.2.1 (by decide)).1, h.2.2.mpr (by decide)⟩

/-- C4 counterexample: with `release.createTag` enabled and the configured
tag prefix literally `--notag`, the resolved tag options contain both
`--tag` and the string `--notag` (the latter as the value following
`--tagprefix`), so the options do not contain exactly one of the two
flags. -/
theorem claim_C4_counterexample :
    "--tag" ∈ getTagOptions
        [("release.createTag", ConfigValue.bool true),
         ("release.tagPrefix", ConfigValue.str "--notag")] "release"
        none none ∧
    "--notag" ∈ getTagOptions
        [("release.createTag", ConfigValue.bool true),
         ("release.tagPrefix", ConfigValue.str "--notag")] "release"
        none none := by
  decide

/-- C4 (amended): the resolved tag options contain exactly one occurrence
of the two flags `--tag`/`--notag` — never both, never neither — provided
none of the configured tag prefix, the configured GPG signing key, and the
interactively entered tag message is itself (after trimming) one of those
two literal strings. -/
theorem claim_C4_amended_exactly_one_tag_flag (cfg : Config)
    (branchType : String) (branchName promptResult : Option String)
    (hp1 : jsTrim (configGetStr cfg (branchType ++ ".tagPrefix") "") ≠ "--tag")
    (hp2 : jsTrim (configGetStr cfg (branchType ++ ".tagPrefix") "") ≠ "--notag")
    (hk1 : jsTrim (configGetStr cfg "gpgSigningKey" "") ≠ "--tag")
    (hk2 : jsTrim (configGetStr cfg "gpgSigningKey" "") ≠ "--notag")
    (hmsg : ∀ m, promptResult = some m →
      jsTrim m ≠ "--tag" ∧ jsTrim m ≠ "--notag") :
    (getTagOptions cfg branchType branchName promptResult).count "--tag" +
    (getTagOptions cfg branchType branchName promptResult).count "--notag"
      = 1 := by
  have hp1' := Ne.symm hp1
  have hp2' := Ne.symm hp2
  have hk1' := Ne.symm hk1
  have hk2' := Ne.symm hk2
  cases hct : configGetBool cfg (branchType ++ ".createTag") false with
  | false => simp [getTagOptions, hct]
  | true =>
    cases promptResult with
    | none =>
      simp only [getTagOptions, hct]
      split_ifs <;>
        simp_all [List.count_append, List.count_cons]
    | some m =>
      obtain ⟨hm1, hm2⟩ := hmsg m rfl
      have hm1' := Ne.symm hm1
      have hm2' := Ne.symm hm2
      simp only [getTagOptions, hct]
      split_ifs <;>
        simp_all [List.count_append, List.count_cons]

/-- Witness for C4's amended statement: tag creation enabled with an
ordinary configuration yields exactly one of the two flags. -/
theorem claim_C4_witness :
    (getTagOptions [("feature.createTag", ConfigValue.bool true)] "feature"
        none none).count "--tag" +
    (getTagOptions [("feature.createTag", ConfigValue.bool true)] "feature"
        none none).count "--notag" = 1 :=
  claim_C4_amended_exactly_one_tag_flag
    [("feature.createTag", ConfigValue.bool true)] "feature" none none
    (by decide) (by decide) (by decide) (by decide)
    (fun m h => nomatch h)

theorem errorMarkerAt_zero (s : List Char) :
    errorMarkerAt s 0 =
      (errMarker.isPrefixOf s &&
        !(lineTake (List.drop errMarker.length s)).isEmpty) := by
  unfold errorMarkerAt
  rw [List.drop_zero, Nat.zero_add]

theorem errorMarkerAt_cons (c : Char) (rest : List Char) (i : Nat) :
    errorMarkerAt (c :: rest) (i + 1) = errorMarkerAt rest i := by
  unfold errorMarkerAt
  rw [List.drop_succ_cons,
    show i + 1 + errMarker.length = i + errMarker.length + 1 by omega,
    List.drop_succ_cons]

theorem findErrorCapture_eq_firstMarker (s : List Char) :
    findErrorCapture s =
      (firstErrorMarker s).map
        (fun i => lineTake (List.drop (i + errMarker.length) s)) := by
  induction s with
  | nil => rfl
  | cons c rest ih =>
    have hg : ∀ i : Nat,
        lineTake (List.drop (i + 1 + errMarker.length) (c :: rest)) =
          lineTake (List.drop (i + errMarker.length) rest) := by
      intro i
      rw [show i + 1 + errMarker.length = i + errMarker.length + 1 by omega,
        List.drop_succ_cons]
    have hcomp : ((fun i => errorMarkerAt (c :: rest) i) ∘ Nat.succ) =
        (fun i => errorMarkerAt rest i) := by
      funext i
      exact errorMarkerAt_cons c rest i
    simp only [findErrorCapture]
    unfold firstErrorMarker
    rw [List.length_cons, List.range_succ_eq_map, List.find?_cons]
    cases h0 : errorMarkerAt (c :: rest) 0 with
    | true =>
      have hc := h0
      rw [errorMarkerAt_zero] at hc
      simp [hc, Nat.zero_add]
    | false =>
      have hc := h0
      rw [errorMarkerAt_zero] at hc
      rw [List.find?_map, hcomp]
      simp only [h0, hc, Bool.false_eq_true, if_false, Option.map_map]
      rw [ih]
      unfold firstErrorMarker
      cases hr : (List.range rest.length).find? (fun i => errorMarkerAt rest i) with
      | none => rfl
      | some i =>
        simp only [Option.map_some']
        rw [Function.comp_apply]
        exact congrArg some (hg i).symm

/-- C9: the extracted error message of `executeGitFlowCommand` is the text
that follows the first `Error: ` marker (the least position carrying the
marker with a non-empty message) up to the end of that line when such a
marker exists, and otherwise the trimmed remainder of the failure text
after stripping a leading `Command failed: <cmdline>` line. -/
theorem claim_C9_error_message_extraction (errorMessage : List Char) :
    extractGitFlowError errorMessage =
      match firstErrorMarker errorMessage with
      | some i => lineTake (List.drop (i + errMarker.length) errorMessage)
      | none => trimChars (stripCommandFailed errorMessage) := by
  unfold extractGitFlowError
  rw [findErrorCapture_eq_firstMarker]
  cases firstErrorMarker errorMessage <;> rfl

end GitFlowNext
